import Mathlib

/-!
Verification development for the MedEasy scraper pipeline.

The definitions below are a shallow embedding of the Python sources:
`src/scrapers/base_scraper.py`, `src/scrapers/medeasy_scraper.py` and
`src/api/main_local.py`.  Pure helpers become Lean functions on
`String`/`List`; the SQLAlchemy session becomes an explicit state record;
exceptions become an explicit fault parameter; network I/O becomes an
environment of oracle functions.  Machine floats are modelled as exact
rationals (all values involved, e.g. 1250.50, are dyadic and exact in
IEEE 754).  Python's `str` percent-decoding is modelled per character,
which agrees with CPython on ASCII payloads (the only payloads appearing
in the claims); Python's `\d` is modelled as the ASCII digits, which
agrees with CPython on the claim inputs.
-/

namespace MedEasy

/-! ### Generic string helpers (Python built-ins used by the scraper) -/

/-- The words of a character list: split on whitespace runs, discarding
empty pieces (Python `str.split()` with no argument).  `acc` carries the
current word reversed. -/
def wordsAux : List Char → List Char → List (List Char)
  | [], [] => []
  | [], acc => [acc.reverse]
  | c :: cs, acc =>
    if c.isWhitespace then
      if acc = [] then wordsAux cs [] else acc.reverse :: wordsAux cs []
    else wordsAux cs (c :: acc)

/-- Join strings with single spaces (`" ".join(...)`). -/
def joinSpace : List String → String
  | [] => ""
  | [w] => w
  | w :: ws => w ++ " " ++ joinSpace ws

/-- Python `" ".join(text.split()).strip()` — the body of
`BaseScraper.clean_text` (`base_scraper.py:131`). `str.split()` splits on
whitespace runs and discards empty pieces, so the join has no leading or
trailing space and the final `strip()` is the identity. -/
def clean_text (s : String) : String :=
  joinSpace ((wordsAux s.data []).map (fun w => ⟨w⟩))

/-- Value of a hexadecimal digit, `none` for non-hex characters. -/
def hexVal (c : Char) : Option Nat :=
  if '0' ≤ c ∧ c ≤ '9' then some (c.toNat - '0'.toNat)
  else if 'a' ≤ c ∧ c ≤ 'f' then some (c.toNat - 'a'.toNat + 10)
  else if 'A' ≤ c ∧ c ≤ 'F' then some (c.toNat - 'A'.toNat + 10)
  else none

/-- Percent-decoding on a character list: `%XY` with two hex digits becomes
the byte `16*X+Y`; a `%` not followed by two hex digits is kept literally
(CPython `urllib.parse.unquote` behaviour, restricted to ASCII payloads). -/
def pctDecode : List Char → List Char
  | '%' :: a :: b :: rest =>
    match hexVal a, hexVal b with
    | some x, some y => Char.ofNat (16 * x + y) :: pctDecode rest
    | _, _ => '%' :: pctDecode (a :: b :: rest)
  | c :: rest => c :: pctDecode rest
  | [] => []

/-- Python `urllib.parse.unquote` (ASCII scope). -/
def unquote (s : String) : String := ⟨pctDecode s.data⟩

/-- Python `urllib.parse.unquote_plus`: `+` becomes a space, then
percent-decoding. -/
def unquote_plus (s : String) : String :=
  ⟨pctDecode (s.data.map (fun c => if c = '+' then ' ' else c))⟩

/-- Characters before the first occurrence of `c`. -/
def beforeFirst (c : Char) : List Char → List Char
  | [] => []
  | x :: xs => if x = c then [] else x :: beforeFirst c xs

/-- Characters after the first occurrence of `c`, `none` if `c` is absent. -/
def afterFirst (c : Char) : List Char → Option (List Char)
  | [] => none
  | x :: xs => if x = c then some xs else afterFirst c xs

/-- The query component of `urllib.parse.urlparse`: the part after the first
`?`, with any `#fragment` stripped first. -/
def queryOf (s : String) : String :=
  match afterFirst '?' (beforeFirst '#' s.data) with
  | some q => ⟨q⟩
  | none => ""

/-- Split a `name=value` pair at its first `=`; `none` when there is no `=`
(such pieces are skipped by `parse_qsl` with `strict_parsing=False`). -/
def splitPair (cs : List Char) : Option (List Char × List Char) :=
  (afterFirst '=' cs).map (fun v => (beforeFirst '=' cs, v))

/-- Split a character list on a separator character, keeping empty pieces
(Python `str.split('&')`). -/
def splitOnChar (sep : Char) : List Char → List (List Char)
  | [] => [[]]
  | x :: xs =>
    if x = sep then [] :: splitOnChar sep xs
    else
      match splitOnChar sep xs with
      | h :: t => (x :: h) :: t
      | [] => [[x]]

/-- Python `urllib.parse.parse_qsl(query)` (defaults: `&` separator,
`keep_blank_values=False`, so pairs with an empty value are dropped, as are
pieces with no `=`); both name and value are decoded with `unquote_plus`. -/
def parse_qsl (query : String) : List (String × String) :=
  (splitOnChar '&' query.data).foldr
    (fun piece acc =>
      match splitPair piece with
      | some (n, v) =>
        if v = [] then acc
        else (unquote_plus ⟨n⟩, unquote_plus ⟨v⟩) :: acc
      | none => acc)
    []

/-- `parse_qs(query)[key][0]`: the first value bound to `key`, if any. -/
def qsFirst (query key : String) : Option String :=
  ((parse_qsl query).find? (fun p => p.1 = key)).map (·.2)

/-- Does `n` occur as a contiguous run at the head of `h`? -/
def listStartsWith : List Char → List Char → Bool
  | [], _ => true
  | _ :: _, [] => false
  | a :: as, b :: bs => a = b && listStartsWith as bs

/-- Python `needle in haystack` on strings: contiguous-substring test. -/
def pyIn (needle haystack : String) : Bool :=
  go needle.data haystack.data
where
  go (n : List Char) : List Char → Bool
    | [] => listStartsWith n []
    | c :: cs => listStartsWith n (c :: cs) || go n cs

/-! ### Price parsing — `BaseScraper.extract_price` (`base_scraper.py:139`)

```python
if not price_text: return None
price_match = re.search(r'[\d,]+\.?\d*', price_text.replace(',', ''))
if price_match: return float(price_match.group())
return None
```
-/

/-- Character class `[\d,]` of the price regex (ASCII scope). -/
def isDigitOrComma (c : Char) : Bool := c.isDigit || c = ','

/-- Drop characters until the head is in `[\d,]` — the position where
`re.search` finds the first match of `[\d,]+\.?\d*` (the match must begin
with a class character). -/
def findTokenStart : List Char → Option (List Char)
  | [] => none
  | c :: cs => if isDigitOrComma c then some (c :: cs) else findTokenStart cs

/-- The text matched by `[\d,]+\.?\d*` at the head of `cs` (head known to be
in the class): a maximal `[\d,]` run, an optional `.`, a maximal digit run. -/
def priceToken (cs : List Char) : List Char :=
  let run1 := cs.takeWhile isDigitOrComma
  let rest1 := cs.dropWhile isDigitOrComma
  match rest1 with
  | '.' :: rest2 => run1 ++ '.' :: rest2.takeWhile Char.isDigit
  | _ => run1

/-- Natural number denoted by a digit string. -/
def natOfDigits (ds : List Char) : Nat :=
  ds.foldl (fun acc c => 10 * acc + (c.toNat - '0'.toNat)) 0

/-- Python `float(t)` on a token produced by the price regex: fails when a
comma is present, otherwise `intpart[.fracpart]` read exactly. -/
def pyFloatOfToken (t : List Char) : Option ℚ :=
  if t.any (· = ',') then none
  else
    let intPart := t.takeWhile Char.isDigit
    let rest := t.dropWhile Char.isDigit
    let fracPart := match rest with
      | '.' :: ds => ds
      | _ => []
    some ((natOfDigits intPart : ℚ) + (natOfDigits fracPart : ℚ) / (10 : ℚ) ^ fracPart.length)

/-- `BaseScraper.extract_price` (`base_scraper.py:139-151`). -/
def extract_price (price_text : String) : Option ℚ :=
  if price_text = "" then none
  else
    match findTokenStart (price_text.data.filter (fun c => c != ',')) with
    | some cs => pyFloatOfToken (priceToken cs)
    | none => none

/-! ### Next.js image-proxy URL decoding
(`medeasy_scraper.py:308-334` and the Next.js phase of
`extract_image_url`, `medeasy_scraper.py:198-213`) -/

/-- `MedEasyScraper._extract_nextjs_image_url`: parse the query of the
proxy URL, take `parse_qs(...)['url'][0]`, apply `unquote` once more, and
return it only when it contains `api.medeasy.health`. -/
def extract_nextjs_image_url (nextjs_url : String) : Option String :=
  match qsFirst (queryOf nextjs_url) "url" with
  | some v =>
    let original := unquote v
    if pyIn "api.medeasy.health" original then some original else none
  | none => none

/-- The first (highest-priority) phase of
`MedEasyScraper.extract_image_url`: scan the page's `<img>` `src`
attributes in order; on each one containing `/_next/image?url=`, try the
proxy decoder and return its first hit. -/
def nextjsImagePhase : List String → Option String
  | [] => none
  | src :: rest =>
    if pyIn "/_next/image?url=" src then
      match extract_nextjs_image_url src with
      | some u => some u
      | none => nextjsImagePhase rest
    else nextjsImagePhase rest

/-! ### Fallback product code (`medeasy_scraper.py:715-717`)

```python
if not medicine_data.get('product_code'):
    medicine_data['product_code'] = f"ME_{hash(url) % 1000000:06d}"
```

`hash` is the interpreter's string hash; it is threaded through the
extractor as an explicit parameter `h : String → Int`.  Python `%` on a
positive modulus agrees with `Int.emod`. -/

/-- `f"{n:06d}"` for `n < 1000000`: decimal digits left-padded with `0` to
width 6. -/
def pad6 (n : Nat) : String :=
  let s := toString n
  ⟨List.replicate (6 - s.length) '0'⟩ ++ s

/-- The synthesized fallback product code `f"ME_{hash(url) % 1000000:06d}"`. -/
def mkFallbackCode (h : String → Int) (url : String) : String :=
  "ME_" ++ pad6 ((h url).emod 1000000).toNat

/-! ### Field extraction — `MedEasyScraper.extract_medicine_data`
(`medeasy_scraper.py:552-723`)

Each field tries an ordered selector list and keeps the first match.  The
page is embedded as the outcome of those selector cascades: for every
field, the raw text of the first matching element (`none` when no selector
matched).  `raw_data` is carried by the dict but is never persisted by
`save_medicine_to_db` (both its branches skip the `raw_data` key), so it
is not modelled. -/

structure MedPage where
  nameText : Option String
  genericText : Option String
  brandText : Option String
  manufacturerText : Option String
  priceText : Option String
  strengthText : Option String
  formText : Option String
  packText : Option String
  descText : Option String
  codeText : Option String
  deriving Repr, DecidableEq

/-- The medicine dict built by `extract_medicine_data`: a field is `none`
exactly when its key is absent from the dict. `product_code` is always
present (scraped or synthesized). -/
structure MedicineData where
  name : Option String
  generic_name : Option String
  brand_name : Option String
  manufacturer : Option String
  price : Option ℚ
  currency : Option String
  strength : Option String
  dosage_form : Option String
  pack_size : Option String
  description : Option String
  product_code : String
  category_id : Option Nat
  deriving Repr, DecidableEq

/-- `extract_medicine_data(soup, url, category_id, category_slug)`:
text fields are cleaned with `clean_text`; the price is parsed from the
raw element text and stored (with currency `"BDT"`) only when truthy
(`if price:` — so a parsed 0 is dropped); `category_id` is copied from the
argument, never read from the page; the product code falls back to
`mkFallbackCode` when the scraped code is missing or cleans to `""`
(`if not medicine_data.get('product_code')`). -/
def extract_medicine_data (h : String → Int) (page : MedPage) (url : String)
    (category_id : Option Nat) : MedicineData :=
  let price := page.priceText.bind (fun t =>
    match extract_price t with
    | some q => if q = 0 then none else some q
    | none => none)
  { name := page.nameText.map clean_text
    generic_name := page.genericText.map clean_text
    brand_name := page.brandText.map clean_text
    manufacturer := page.manufacturerText.map clean_text
    price := price
    currency := price.map (fun _ => "BDT")
    strength := page.strengthText.map clean_text
    dosage_form := page.formText.map clean_text
    pack_size := page.packText.map clean_text
    description := page.descText.map clean_text
    product_code :=
      match page.codeText.map clean_text with
      | some s => if s ≠ "" then s else mkFallbackCode h url
      | none => mkFallbackCode h url
    category_id := category_id }

/-- Python truthiness of `medicine_data.get('name')`: present and non-empty. -/
def nameTruthy (d : MedicineData) : Bool :=
  match d.name with
  | some s => s ≠ ""
  | none => false

/-! ### Storage — `database/models.py` rows and the session state -/

/-- A `medicines` table row (persisted columns the scraper writes). -/
structure MedicineRow where
  id : Nat
  name : Option String
  generic_name : Option String
  brand_name : Option String
  manufacturer : Option String
  price : Option ℚ
  currency : Option String
  strength : Option String
  dosage_form : Option String
  pack_size : Option String
  description : Option String
  product_code : String
  category_id : Option Nat
  deriving Repr, DecidableEq

/-- Processed image payload returned by
`ImageProcessor.download_and_convert_to_webp`. -/
structure ImageData where
  image_data : List Nat
  original_url : String
  file_size : Nat
  width : Nat
  height : Nat
  deriving Repr, DecidableEq

/-- A `medicine_images` table row. -/
structure ImageRow where
  medicine_id : Nat
  image_data : List Nat
  original_url : String
  file_size : Nat
  width : Nat
  height : Nat
  deriving Repr, DecidableEq

/-- A discovered work-list entry
(`{'url': ..., 'category_id': ..., 'category_slug': ...}`). -/
structure MedItem where
  url : String
  category_id : Nat
  category_slug : String
  deriving Repr, DecidableEq

/-- The `resume_data` JSON blob written by `scrape_all_medicines`. -/
structure ResumeData where
  medicine_urls : List MedItem
  current_index : Nat
  processed_items : Nat
  deriving Repr, DecidableEq

/-- The `scraping_progress` row for the task (at most one row per task
name; only this task's row is modelled).  New rows take the column
defaults of `ScrapingProgress`. -/
structure ProgressRow where
  current_page : Nat := 1
  total_pages : Nat := 0
  processed_items : Nat := 0
  total_items : Nat := 0
  status : String := "running"
  resume_data : Option ResumeData := none
  deriving Repr, DecidableEq

/-- A `scraping_logs` row: level, message, optional URL. -/
structure LogRow where
  level : String
  message : String
  url : Option String
  deriving Repr, DecidableEq

/-- The tables `save_medicine_to_db` writes inside one transaction, plus
the id sequence assigned at `flush`. -/
structure CoreDb where
  medicines : List MedicineRow
  images : List ImageRow
  nextId : Nat
  deriving Repr, DecidableEq

/-- Whole persistent state seen by the crawl: the transactional core, the
progress row and the append-only log (newest log first). -/
structure DBState where
  core : CoreDb
  progress : Option ProgressRow
  logs : List LogRow
  deriving Repr, DecidableEq

def emptyCore : CoreDb := { medicines := [], images := [], nextId := 1 }

def emptyDb : DBState := { core := emptyCore, progress := none, logs := [] }

/-- `log_scraping_event` (`medeasy_scraper.py:59-74`): its own session,
committed independently of any product transaction. -/
def log_scraping_event (db : DBState) (level message : String)
    (url : Option String) : DBState :=
  { db with logs := ⟨level, message, url⟩ :: db.logs }

/-- `update_progress` (`medeasy_scraper.py:76-95`): upsert the task's
progress row, overwriting the counters and status and keeping
`resume_data`. -/
def update_progress (db : DBState) (current_page total_pages processed_items
    total_items : Nat) (status : String) : DBState :=
  let row := (db.progress.getD {}).resume_data
  { db with progress := some ⟨current_page, total_pages, processed_items,
      total_items, status, row⟩ }

/-- `get_resume_data` (`medeasy_scraper.py:97-108`). -/
def get_resume_data (db : DBState) : Option ResumeData :=
  db.progress.bind (·.resume_data)

/-- `save_resume_data` (`medeasy_scraper.py:110-124`): upsert the progress
row, setting only `resume_data` (a fresh row keeps the column defaults,
including status `"running"`). -/
def save_resume_data (db : DBState) (rd : ResumeData) : DBState :=
  { db with progress := some ({ db.progress.getD {} with resume_data := some rd }) }

/-! ### Product upsert — `MedEasyScraper.save_medicine_to_db`
(`medeasy_scraper.py:725-792`)

One session, one `commit`.  The outer `except` rolls the transaction back,
logs an `ERROR` event (through its own independent session) and returns
`False`.  The inner `try` around the image writes catches image exceptions
and falls through to the commit, so the medicine is still persisted.
Exceptions are made explicit as a `SaveFault` argument: `ok` (no
exception), `dbError` (an exception anywhere outside the inner image
`try`, including at `commit`), `imageError` (an exception inside the inner
image `try`). -/

inductive SaveFault where
  | ok
  | dbError
  | imageError
  deriving Repr, DecidableEq

/-- The update branch: `setattr(existing, key, value)` for every key of the
dict except `raw_data`.  Keys absent from the dict keep the old column
value; `product_code` and `category_id`-when-present overwrite. -/
def applyUpdate (r : MedicineRow) (d : MedicineData) : MedicineRow :=
  { r with
    name := d.name <|> r.name
    generic_name := d.generic_name <|> r.generic_name
    brand_name := d.brand_name <|> r.brand_name
    manufacturer := d.manufacturer <|> r.manufacturer
    price := d.price <|> r.price
    currency := d.currency <|> r.currency
    strength := d.strength <|> r.strength
    dosage_form := d.dosage_form <|> r.dosage_form
    pack_size := d.pack_size <|> r.pack_size
    description := d.description <|> r.description
    product_code := d.product_code
    category_id := d.category_id <|> r.category_id }

/-- The insert branch: `Medicine(**model_fields)`; the id is assigned by
`db.flush()`. -/
def mkRow (id : Nat) (d : MedicineData) : MedicineRow :=
  { id := id, name := d.name, generic_name := d.generic_name,
    brand_name := d.brand_name, manufacturer := d.manufacturer,
    price := d.price, currency := d.currency, strength := d.strength,
    dosage_form := d.dosage_form, pack_size := d.pack_size,
    description := d.description, product_code := d.product_code,
    category_id := d.category_id }

/-- Mutate the first row whose `product_code` matches `d.product_code`
(SQLAlchemy `filter_by(...).first()` followed by `setattr`s). -/
def updateFirstRow (d : MedicineData) : List MedicineRow → List MedicineRow
  | [] => []
  | r :: rs =>
    if r.product_code = d.product_code then applyUpdate r d :: rs
    else r :: updateFirstRow d rs

/-- Image upsert: mutate the first `medicine_images` row of this medicine
in place, or append a new row. -/
def upsertImage (mid : Nat) (img : ImageData) : List ImageRow → List ImageRow
  | [] => [⟨mid, img.image_data, img.original_url, img.file_size, img.width, img.height⟩]
  | r :: rs =>
    if r.medicine_id = mid then
      ⟨mid, img.image_data, img.original_url, img.file_size, img.width, img.height⟩ :: rs
    else r :: upsertImage mid img rs

/-- The transactional effect of `save_medicine_to_db` on the tables, for a
given fault.  `dbError` = rollback (tables unchanged); `imageError` = the
medicine write survives, the image write is abandoned.  The `existing`
lookup happens only when the product code is truthy; the update branch
keeps the looked-up row's id for the image's foreign key, the insert
branch uses the id assigned at `flush` (`core.nextId`). -/
def saveMedicineCore (fault : SaveFault) (d : MedicineData)
    (img : Option ImageData) (core : CoreDb) : CoreDb × Bool :=
  match fault with
  | .dbError => (core, false)
  | _ =>
    match (if d.product_code ≠ "" then
             core.medicines.find? (fun r => r.product_code = d.product_code)
           else none) with
    | some r =>
      ({ medicines := updateFirstRow d core.medicines,
         images := match fault, img with
           | .ok, some im => upsertImage r.id im core.images
           | _, _ => core.images,
         nextId := core.nextId }, true)
    | none =>
      ({ medicines := core.medicines ++ [mkRow core.nextId d],
         images := match fault, img with
           | .ok, some im => upsertImage core.nextId im core.images
           | _, _ => core.images,
         nextId := core.nextId + 1 }, true)

/-- `save_medicine_to_db(medicine_data, image_data)`: transactional core
effect plus the product-level `ERROR` log on rollback. -/
def save_medicine_to_db (fault : SaveFault) (d : MedicineData)
    (img : Option ImageData) (db : DBState) : DBState × Bool :=
  let (core, ok) := saveMedicineCore fault d img db.core
  if ok then ({ db with core := core }, true)
  else (log_scraping_event { db with core := core } "ERROR"
          "Error saving medicine to database" none, false)

/-- Number of rows in a list carrying a given product code. -/
def countRows (rows : List MedicineRow) (code : String) : Nat :=
  (rows.filter (fun r => r.product_code = code)).length

/-- Number of live medicine rows carrying a given product code. -/
def countCode (core : CoreDb) (code : String) : Nat :=
  countRows core.medicines code

/-- The saved row reflects the scraped data: same product code, and every
field the scrape produced has exactly the scraped value. -/
def fieldsReflect (r : MedicineRow) (d : MedicineData) : Prop :=
  r.product_code = d.product_code ∧
  (∀ v, d.name = some v → r.name = some v) ∧
  (∀ v, d.generic_name = some v → r.generic_name = some v) ∧
  (∀ v, d.brand_name = some v → r.brand_name = some v) ∧
  (∀ v, d.manufacturer = some v → r.manufacturer = some v) ∧
  (∀ v, d.price = some v → r.price = some v) ∧
  (∀ v, d.currency = some v → r.currency = some v) ∧
  (∀ v, d.strength = some v → r.strength = some v) ∧
  (∀ v, d.dosage_form = some v → r.dosage_form = some v) ∧
  (∀ v, d.pack_size = some v → r.pack_size = some v) ∧
  (∀ v, d.description = some v → r.description = some v) ∧
  (∀ v, d.category_id = some v → r.category_id = some v)

/-! ### URL discovery — `MedEasyScraper.discover_medicine_urls`
(`medeasy_scraper.py:435-518`)

A listing page is embedded as the outcome of the parsing steps the loop
performs on it: the product links returned by
`extract_medicine_links_from_page`, whether `soup.find(string=...'next')`
finds a "next" text node, and — when a `ul.pagination` element exists —
whether any of its anchors mentions "next". -/

structure ListingPage where
  links : List String
  textHasNext : Bool
  pagination : Option Bool
  deriving Repr, DecidableEq

/-- The loop's continue condition: a "next" text node anywhere, or a
pagination control with a next link (absence of both breaks the loop). -/
def hasNextAffordance (lp : ListingPage) : Bool :=
  lp.textHasNext || (lp.pagination.getD false)

/-- `Config.BASE_URL` for the MedEasy site (`config.py`). -/
def baseUrl : String := "https://medeasy.health"

/-- The listing-page URL for a category and page number
(`{base}/{slug}` for page 1, `{base}/{slug}?page={n}` after). -/
def categoryPageUrl (slug : String) (page : Nat) : String :=
  if page = 1 then baseUrl ++ "/" ++ slug
  else baseUrl ++ "/" ++ slug ++ "?page=" ++ toString page

/-- The hard-coded slug → category-id table
(`MedEasyScraper.__init__`, `medeasy_scraper.py:24-39`). -/
def category_mappings : List (String × Nat) :=
  [("womens-choice", 1), ("sexual-wellness", 2), ("skin-care", 3),
   ("diabetic-care", 4), ("devices", 5), ("supplement", 6), ("diapers", 7),
   ("baby-care", 8), ("personal-care", 9), ("hygiene-and-freshness", 10),
   ("dental-care", 11), ("herbal-medicine", 12),
   ("prescription-medicine", 13), ("otc-medicine", 14)]

/-- The ordered category slug list walked by discovery
(`medeasy_scraper.py:42-57`). -/
def category_urls : List String :=
  ["womens-choice", "sexual-wellness", "skin-care", "diabetic-care",
   "devices", "supplement", "diapers", "baby-care", "personal-care",
   "hygiene-and-freshness", "dental-care", "herbal-medicine",
   "prescription-medicine", "otc-medicine"]

/-! ### Per-page scrape — `MedEasyScraper.scrape_medicine_page`
(`medeasy_scraper.py:794-841`)

The network and the image pipeline are an environment of deterministic
oracles: `fetch` is the parsed outcome of `fetch_page_async` +
`extract_medicine_data`'s selector cascades on that URL's HTML, `image`
is the outcome of `extract_image_url` + `process_medicine_image` for that
URL, and `saveFault` says whether the database raises while saving that
URL's product. -/

structure Env where
  fetch : String → Option MedPage
  image : String → Option ImageData
  saveFault : String → SaveFault
  listing : String → Option ListingPage

/-- `scrape_medicine_page(url, category_id, category_slug)`. -/
def scrape_medicine_page (h : String → Int) (env : Env) (item : MedItem)
    (db : DBState) : DBState × Bool :=
  match env.fetch item.url with
  | none => (db, false)
  | some page =>
    let d := extract_medicine_data h page item.url (some item.category_id)
    let img := env.image item.url
    if nameTruthy d then
      let (db1, ok) := save_medicine_to_db (env.saveFault item.url) d img db
      if ok then
        (log_scraping_event db1 "INFO"
          ("Successfully scraped medicine: " ++ (d.name.getD "")) (some item.url), true)
      else
        (log_scraping_event db1 "ERROR" "Failed to save medicine to database"
          (some item.url), false)
    else
      (log_scraping_event db "WARNING" "No medicine name found on page"
        (some item.url), false)

/-- One category's `while True` pagination loop, started at `page`; returns
the tagged work-list entries and the number of listing pages fetched.  The
loop breaks on a failed fetch, an empty link extraction, a missing
next-page affordance, or the safety cap (`page += 1; if page > 50: break`),
so it recurses only while `page + 1 ≤ 50`.  The structural `fuel` argument
only makes the recursion evident to Lean: entered with
`fuel = 51 - page` (as `discoverCat` does), the `fuel = 0` branch is
unreachable, because each recursive call keeps `fuel + page = 51` and the
`page + 1 ≤ 50` guard then keeps the callee's fuel positive.  The page
cap is proved from the guard for every fuel (`discoverCatGo_pages_le`),
not from the fuel. -/
def discoverCatGo (env : Env) (slug : String) (catId : Nat) :
    Nat → Nat → List MedItem × Nat
  | _, 0 => ([], 0)
  | page, fuel + 1 =>
    match env.listing (categoryPageUrl slug page) with
    | none => ([], 1)
    | some lp =>
      if lp.links = [] then ([], 1)
      else
        let items := lp.links.map (fun l => MedItem.mk l catId slug)
        if hasNextAffordance lp then
          if page + 1 > 50 then (items, 1)
          else
            let (rest, c) := discoverCatGo env slug catId (page + 1) fuel
            (items ++ rest, c + 1)
        else (items, 1)

/-- The loop for one category, from page 1. -/
def discoverCat (env : Env) (slug : String) (catId : Nat) :
    List MedItem × Nat :=
  discoverCatGo env slug catId 1 50

/-- `discover_medicine_urls`: walk the category list in order, skip slugs
missing from the mapping table, and concatenate each category's tagged
URLs. -/
def discover_medicine_urls (env : Env) : List MedItem :=
  category_urls.foldr
    (fun slug acc =>
      match (category_mappings.find? (fun p => p.1 = slug)).map (·.2) with
      | some catId => (discoverCat env slug catId).1 ++ acc
      | none => acc)
    []

/-! ### Crawl orchestration — `MedEasyScraper.scrape_all_medicines`
(`medeasy_scraper.py:843-916`) -/

/-- The body of the per-item loop, iterated over
`medicine_urls[current_index:]` with `idx` enumerating from
`current_index`: scrape, bump the processed counter on success, write the
progress row, then write the checkpoint `{work list, idx + 1, processed}`
— after every single item.  Returns the state and the final processed
counter. -/
def processItems (h : String → Int) (env : Env) (allUrls : List MedItem) :
    List MedItem → Nat → Nat → DBState → DBState × Nat
  | [], _, processed, db => (db, processed)
  | item :: rest, idx, processed, db =>
    let (db1, ok) := scrape_medicine_page h env item db
    let p1 := if ok then processed + 1 else processed
    let db2 := update_progress db1 1 1 p1 allUrls.length "running"
    let db3 := save_resume_data db2 ⟨allUrls, idx + 1, p1⟩
    processItems h env allUrls rest (idx + 1) p1 db3

/-- `scrape_all_medicines(resume)`.  With `resume` and a stored checkpoint,
the work list, cursor and processed count are reloaded instead of
re-discovering.  An empty work list logs an `ERROR` event and returns —
no progress write happens on that path.  Otherwise the progress row is
initialised, the per-item loop runs, and the run is marked `"completed"`. -/
def scrape_all_medicines (h : String → Int) (env : Env) (resume : Bool)
    (db : DBState) : DBState :=
  let db := log_scraping_event db "INFO" "Starting MedEasy medicine scraping" none
  let rd := if resume then get_resume_data db else none
  let db := match rd with
    | some _ => log_scraping_event db "INFO" "Resuming from previous session" none
    | none => db
  let (urls, cur, processed) := match rd with
    | some r => (r.medicine_urls, r.current_index, r.processed_items)
    | none => (discover_medicine_urls env, 0, 0)
  if urls = [] then
    log_scraping_event db "ERROR" "No medicine URLs found" none
  else
    let db := update_progress db 1 1 processed urls.length "running"
    let (db, p) := processItems h env urls (urls.drop cur) cur processed db
    let db := update_progress db 1 1 p urls.length "completed"
    log_scraping_event db "INFO"
      ("Scraping completed. Processed " ++ toString p ++ " medicines") none

/-! ### API start endpoint — `start_scraping` (`api/main_local.py:83-111`)

The handler reads the persisted progress status; if it is `"running"` the
request is rejected by raising before the scraper object is created and
before `background_tasks.add_task`, so nothing is mutated.  Otherwise a
scraper is constructed and `scrape_all_medicines` is scheduled as a
background task.  The launched task only persists status `"running"` at
its first `update_progress`, which happens after URL discovery — so the
guard and the status write are not atomic.  The interleaving of handler
calls and task steps is modelled as a small event system. -/

structure ApiState where
  progressStatus : Option String
  inFlight : Nat
  deriving Repr, DecidableEq

def apiInit : ApiState := { progressStatus := none, inFlight := 0 }

/-- `start_scraping`: returns the new state and whether the request was
accepted (`false` = the HTTP error path). -/
def start_scraping (s : ApiState) : ApiState × Bool :=
  if s.progressStatus = some "running" then (s, false)
  else ({ s with inFlight := s.inFlight + 1 }, true)

inductive ApiEvent where
  | startCrawl
  | taskWritesRunning
  | taskCompletes
  deriving Repr, DecidableEq

/-- One atomic step of the system: an API start call, a launched task's
first progress write (status `"running"`), or a task finishing (status
`"completed"`). -/
def apiStep (s : ApiState) : ApiEvent → ApiState
  | .startCrawl => (start_scraping s).1
  | .taskWritesRunning =>
    if s.inFlight > 0 then { s with progressStatus := some "running" } else s
  | .taskCompletes =>
    if s.inFlight > 0 then
      { progressStatus := some "completed", inFlight := s.inFlight - 1 }
    else s

/-- States reachable from `apiInit` by a sequence of events. -/
def runApi (s : ApiState) (es : List ApiEvent) : ApiState :=
  es.foldl apiStep s

/-! ### Projections used by the resumability proof

`scrape_medicine_page` reads and writes the transactional tables
(`CoreDb`) and appends logs; it never reads the progress row.  The two
functions below are its effect on the tables and its success flag,
factored out so that runs interleaved with different progress writes can
be compared. -/

/-- Effect of one `scrape_medicine_page` call on the tables. -/
def scrapeCore (h : String → Int) (env : Env) (item : MedItem)
    (core : CoreDb) : CoreDb :=
  match env.fetch item.url with
  | none => core
  | some page =>
    let d := extract_medicine_data h page item.url (some item.category_id)
    if nameTruthy d then
      (saveMedicineCore (env.saveFault item.url) d (env.image item.url) core).1
    else core

/-- Whether one `scrape_medicine_page` call reports success (it does not
depend on the database state). -/
def itemOk (h : String → Int) (env : Env) (item : MedItem) : Bool :=
  match env.fetch item.url with
  | none => false
  | some page =>
    let d := extract_medicine_data h page item.url (some item.category_id)
    if nameTruthy d then
      match env.saveFault item.url with
      | .dbError => false
      | _ => true
    else false

/-- Effect of the per-item loop on the tables. -/
def processCore (h : String → Int) (env : Env) :
    List MedItem → CoreDb → CoreDb
  | [], core => core
  | item :: rest, core => processCore h env rest (scrapeCore h env item core)

/-- How many of the given items report success. -/
def succCount (h : String → Int) (env : Env) (l : List MedItem) : Nat :=
  (l.filter (fun item => itemOk h env item)).length

/-! ### Concrete fixtures used by witnesses and counterexamples -/

/-- An environment where every fetch fails: discovery returns nothing. -/
def envEmpty : Env :=
  { fetch := fun _ => none, image := fun _ => none,
    saveFault := fun _ => SaveFault.ok, listing := fun _ => none }

/-- A state whose progress row says `"running"` with no checkpoint. -/
def dbRunning : DBState :=
  { core := emptyCore, progress := some ⟨1, 0, 0, 0, "running", none⟩,
    logs := [] }

/-- A two-product `dental-care` fixture site: one listing page with two
product links, each product page carrying only a name (so no rational
price arithmetic is forced during kernel evaluation). -/
def pageA : MedPage :=
  { nameText := some "Alpha Paste", genericText := none, brandText := none,
    manufacturerText := none, priceText := none, strengthText := none,
    formText := none, packText := none, descText := none,
    codeText := some "SKU-A" }

def pageB : MedPage :=
  { nameText := some "Beta Brush", genericText := none, brandText := none,
    manufacturerText := none, priceText := none, strengthText := none,
    formText := none, packText := none, descText := none, codeText := none }

def urlA : String := "https://medeasy.health/medicine/alpha"

def urlB : String := "https://medeasy.health/medicine/beta"

def envW : Env :=
  { fetch := fun u =>
      if u = urlA then some pageA else if u = urlB then some pageB else none
    image := fun _ => none
    saveFault := fun _ => SaveFault.ok
    listing := fun u =>
      if u = "https://medeasy.health/dental-care" then
        some { links := [urlA, urlB], textHasNext := false, pagination := none }
      else none }

/-- A hash-function stand-in for the witnesses. -/
def hW : String → Int := fun _ => 123

/-- A minimal medicine dict for the save-level fixtures. -/
def dataX : MedicineData :=
  { name := some "X", generic_name := none, brand_name := none,
    manufacturer := none, price := none, currency := none, strength := none,
    dosage_form := none, pack_size := none, description := none,
    product_code := "P1", category_id := some 11 }

def imgX : ImageData :=
  { image_data := [1, 2], original_url := "https://api.medeasy.health/x.webp",
    file_size := 2, width := 10, height := 10 }

/-- The state of a crawl started on a fresh database and killed right
after its N-th per-item iteration: the start log, the initial progress
write, then N iterations of the per-item loop over the discovered work
list. -/
def crashedState (h : String → Int) (env : Env) (db0 : DBState) (N : Nat) :
    DBState :=
  (processItems h env (discover_medicine_urls env)
    ((discover_medicine_urls env).take N) 0 0
    (update_progress
      (log_scraping_event db0 "INFO" "Starting MedEasy medicine scraping" none)
      1 1 0 (discover_medicine_urls env).length "running")).1

/-! ## Theorems -/

/-! ### C3 — image-proxy URL decoding -/

/-- C3 (counterexample): on the claim's own example
`/_next/image?url=https%3A%2F%2Fapi.example.com%2Fimg.jpg&w=640` the
resolver does **not** return `https://api.example.com/img.jpg`: the code
accepts only URLs containing `api.medeasy.health`
(`medeasy_scraper.py:322-327`), so the decoder returns `None` and the
Next.js phase of `extract_image_url` falls through. -/
theorem nextjs_decode_counterexample :
    extract_nextjs_image_url
        "/_next/image?url=https%3A%2F%2Fapi.example.com%2Fimg.jpg&w=640" = none ∧
    ¬ nextjsImagePhase
        ["/_next/image?url=https%3A%2F%2Fapi.example.com%2Fimg.jpg&w=640"]
      = some "https://api.example.com/img.jpg" := by
  decide

/-- C3 (amended): for every image src containing the proxy pattern, the
resolver URL-unescapes the embedded `url` query parameter and returns it
exactly when it points at the expected origin `api.medeasy.health`
(otherwise nothing is returned); in particular, the src
`/_next/image?url=https%3A%2F%2Fapi.medeasy.health%2Fimg.jpg&w=640`
recovers `https://api.medeasy.health/img.jpg` exactly. -/
theorem nextjs_decode_amended :
    extract_nextjs_image_url
        "/_next/image?url=https%3A%2F%2Fapi.medeasy.health%2Fimg.jpg&w=640"
      = some "https://api.medeasy.health/img.jpg" ∧
    nextjsImagePhase
        ["/_next/image?url=https%3A%2F%2Fapi.medeasy.health%2Fimg.jpg&w=640"]
      = some "https://api.medeasy.health/img.jpg" ∧
    ∀ src : String,
      extract_nextjs_image_url src = none ∨
      ∃ v, qsFirst (queryOf src) "url" = some v ∧
        extract_nextjs_image_url src = some (unquote v) ∧
        pyIn "api.medeasy.health" (unquote v) = true := by
  refine ⟨by decide, by decide, ?_⟩
  intro src
  unfold extract_nextjs_image_url
  cases hq : qsFirst (queryOf src) "url" with
  | none => exact Or.inl rfl
  | some v =>
    by_cases hp : pyIn "api.medeasy.health" (unquote v) = true
    · exact Or.inr ⟨v, rfl, by simp [hp], hp⟩
    · exact Or.inl (by simp [hp])

/-! ### C4 — price parsing -/

/-- Characters that are neither digits nor commas can never start a match
of `[\d,]+\.?\d*`. -/
theorem findTokenStart_eq_none (cs : List Char)
    (h : ∀ c ∈ cs, isDigitOrComma c = false) : findTokenStart cs = none := by
  induction cs with
  | nil => rfl
  | cons c cs ih =>
    have hc : isDigitOrComma c = false := h c (by simp)
    simpa [findTokenStart, hc] using ih (fun x hx => h x (by simp [hx]))

/-- C4: `extract_price` maps `"৳ 1,250.50"` to `1250.50`, `"Price: N/A"`
to `none`, and `""` to `none`; more generally any text without a digit
parses to `none`. -/
theorem price_parsing_spec :
    extract_price "৳ 1,250.50" = some (1250.50 : ℚ) ∧
    extract_price "Price: N/A" = none ∧
    extract_price "" = none ∧
    ∀ s : String, (∀ c ∈ s.data, c.isDigit = false) → extract_price s = none := by
  refine ⟨?_, by decide, by decide, ?_⟩
  · have h : extract_price "৳ 1,250.50"
        = some ((1250 : ℚ) + (50 : ℚ) / 10 ^ (2 : ℕ)) := rfl
    rw [h]
    norm_num
  · intro s hs
    unfold extract_price
    by_cases hempty : s = ""
    · simp [hempty]
    · have hft : findTokenStart (s.data.filter (fun c => c != ',')) = none := by
        refine findTokenStart_eq_none _ (fun c hc => ?_)
        have hmem := List.of_mem_filter hc
        have hmem' := List.mem_of_mem_filter hc
        simp only [bne_iff_ne, ne_eq] at hmem
        simp [isDigitOrComma, hs c hmem', hmem]
      simp [hempty, hft]

/-- C4 (witness): the no-digit clause applied at `"Price: N/A"`. -/
theorem price_parsing_spec_witness : extract_price "Price: N/A" = none :=
  price_parsing_spec.2.2.2 "Price: N/A" (by decide)

/-! ### C10 — deterministic fallback product code -/

/-- C10: when no product-code element is scraped, the extracted product
code is `"ME_"` followed by `hash(url) % 1000000` (a residue below
1,000,000) zero-padded by the `06d` format, and it depends on the URL
alone: any page without a scraped code and any category yield the same
code for the same URL. -/
theorem fallback_code_spec :
    ∀ (h : String → Int) (page : MedPage) (url : String) (catId : Option Nat),
      page.codeText = none →
      (extract_medicine_data h page url catId).product_code
          = "ME_" ++ pad6 ((h url).emod 1000000).toNat ∧
      ((h url).emod 1000000).toNat < 1000000 ∧
      ∀ (page' : MedPage) (catId' : Option Nat), page'.codeText = none →
        (extract_medicine_data h page' url catId').product_code
          = (extract_medicine_data h page url catId).product_code := by
  intro h page url catId hcode
  have hmain : ∀ (p : MedPage) (c : Option Nat), p.codeText = none →
      (extract_medicine_data h p url c).product_code
        = "ME_" ++ pad6 ((h url).emod 1000000).toNat := by
    intro p c hp
    simp [extract_medicine_data, hp, mkFallbackCode]
  refine ⟨hmain page catId hcode, ?_, ?_⟩
  · have h1 : 0 ≤ (h url).emod 1000000 :=
      Int.emod_nonneg _ (by norm_num)
    have h2 : (h url).emod 1000000 < 1000000 :=
      Int.emod_lt_of_pos _ (by norm_num)
    omega
  · intro page' catId' hcode'
    rw [hmain page' catId' hcode', hmain page catId hcode]

/-- C10 (witness): with the stand-in hash `hW = 123` and the code-less
page `pageB`, the fallback code is `ME_000123`. -/
theorem fallback_code_spec_witness :
    (extract_medicine_data hW pageB urlB none).product_code = "ME_000123" := by
  have h := (fallback_code_spec hW pageB urlB none rfl).1
  rw [h]
  decide

/-! ### C8 — pagination safety cap -/

/-- From any page `1 ≤ page ≤ 50`, the guard `page += 1; if page > 50:
break` lets the loop fetch at most `51 - page` further listing pages —
for every fuel, so the bound comes from the guard, not from the fuel. -/
theorem discoverCatGo_pages_le (env : Env) (slug : String) (catId : Nat) :
    ∀ (fuel page : Nat), page ≤ 50 →
      (discoverCatGo env slug catId page fuel).2 ≤ 51 - page := by
  intro fuel
  induction fuel with
  | zero => intro page _; simp [discoverCatGo]
  | succ fuel ih =>
    intro page hpage
    unfold discoverCatGo
    cases env.listing (categoryPageUrl slug page) with
    | none => simpa using by omega
    | some lp =>
      by_cases hl : lp.links = []
      · simp [hl]; omega
      · by_cases hn : hasNextAffordance lp
        · by_cases hcap : page + 1 > 50
          · simp [hl, hn, hcap]; omega
          · have hrec := ih (page + 1) (by omega)
            simp [hl, hn, hcap]
            omega
        · simp [hl, hn]; omega

/-- C8: the discovery loop never fetches more than 50 listing pages for a
single category, whatever the fetcher and link extractor return — and it
always terminates, `discoverCatGo`/`discoverCat` being total functions. -/
theorem discovery_page_cap :
    ∀ (env : Env) (slug : String) (catId : Nat),
      (discoverCat env slug catId).2 ≤ 50 ∧
      ∀ fuel : Nat, (discoverCatGo env slug catId 1 fuel).2 ≤ 50 := by
  intro env slug catId
  constructor
  · simpa using discoverCatGo_pages_le env slug catId 50 1 (by omega)
  · intro fuel
    simpa using discoverCatGo_pages_le env slug catId fuel 1 (by omega)

/-! ### C7 — no-concurrent-run guarantee -/

/-- C7 (counterexample): "at most one crawl run in flight in every
reachable state" fails.  A launched crawl persists status `"running"` only
at its first progress write, which happens after URL discovery; a second
`start_scraping` issued before that write still sees a non-`"running"`
status and is accepted.  Two bare start events from the initial state
leave two crawls in flight. -/
theorem start_crawl_counterexample :
    (runApi apiInit [ApiEvent.startCrawl, ApiEvent.startCrawl]).inFlight = 2 := by
  decide

/-- C7 (amended): a `start_scraping` call made while the persisted
progress status is `"running"` is rejected and is a complete no-op: the
state (including the number of in-flight crawls) is unchanged and no
second scraper task is launched.  The at-most-one-in-flight guarantee
holds only once the running crawl has persisted its status, not in every
reachable state. -/
theorem start_crawl_rejects_when_running :
    ∀ s : ApiState, s.progressStatus = some "running" →
      start_scraping s = (s, false) ∧ apiStep s ApiEvent.startCrawl = s := by
  intro s hs
  have h : start_scraping s = (s, false) := by
    simp [start_scraping, hs]
  exact ⟨h, by simp [apiStep, h]⟩

/-- C7 (witness): the rejection at a concrete running state. -/
theorem start_crawl_rejects_when_running_witness :
    start_scraping ⟨some "running", 1⟩ = (⟨some "running", 1⟩, false) :=
  (start_crawl_rejects_when_running ⟨some "running", 1⟩ rfl).1

/-! ### C6 — empty discovery does not set status "failed" -/

/-- C6 (counterexample): when discovery returns an empty work list,
`scrape_all_medicines` logs an error and returns without touching the
progress row (`medeasy_scraper.py:867-870` has no `update_progress`
call); starting from a row whose status is `"running"`, the status stays
`"running"` — it is **not** set to `"failed"`. -/
theorem empty_discovery_counterexample :
    (scrape_all_medicines hW envEmpty true dbRunning).progress.map (·.status)
        = some "running" ∧
    ¬ (scrape_all_medicines hW envEmpty true dbRunning).progress.map (·.status)
        = some "failed" := by
  decide

/-- C6 (amended): whenever the work list comes up empty (no checkpoint to
resume and discovery finds nothing, or a checkpoint with an empty list),
the crawl appends the `"No medicine URLs found"` error event and returns
with the progress row exactly as it was — the status is set neither to
`"failed"` nor to `"completed"`; only an escaped exception writes
`"failed"`. -/
theorem get_resume_data_eq (db : DBState) :
    get_resume_data db = db.progress.bind (fun p => p.resume_data) := rfl

theorem empty_discovery_leaves_status :
    ∀ (h : String → Int) (env : Env) (resume : Bool) (db : DBState),
      (match (if resume then get_resume_data db else none) with
       | some r => r.medicine_urls
       | none => discover_medicine_urls env) = [] →
      (scrape_all_medicines h env resume db).progress = db.progress ∧
      (scrape_all_medicines h env resume db).logs.head?
        = some ⟨"ERROR", "No medicine URLs found", none⟩ := by
  intro h env resume db hurls
  simp only [get_resume_data_eq] at hurls
  simp only [scrape_all_medicines, log_scraping_event, get_resume_data_eq]
  cases hrd : (if resume then db.progress.bind (fun p => p.resume_data) else none) with
  | none =>
    rw [hrd] at hurls
    simp at hurls
    simp only [hrd]
    simp [hurls]
  | some r =>
    rw [hrd] at hurls
    simp at hurls
    simp only [hrd]
    simp [hurls]

/-- C6 (witness): the amended statement at the all-fetches-fail
environment and the fresh database. -/
theorem empty_discovery_leaves_status_witness :
    (scrape_all_medicines hW envEmpty true emptyDb).progress = emptyDb.progress ∧
    (scrape_all_medicines hW envEmpty true emptyDb).logs.head?
      = some ⟨"ERROR", "No medicine URLs found", none⟩ :=
  empty_discovery_leaves_status hW envEmpty true emptyDb (by decide)

/-! ### C1 — upsert idempotence by product code -/

theorem countRows_cons (r : MedicineRow) (rs : List MedicineRow) (c : String) :
    countRows (r :: rs) c
      = (if r.product_code = c then 1 else 0) + countRows rs c := by
  by_cases h : r.product_code = c <;>
    simp [countRows, List.filter_cons, h, Nat.add_comm]

theorem countRows_append (l1 l2 : List MedicineRow) (c : String) :
    countRows (l1 ++ l2) c = countRows l1 c + countRows l2 c := by
  simp [countRows, List.filter_append]

/-- Replacing the first row of a code by an update that keeps that code
preserves every code count. -/
theorem countRows_updateFirstRow (d : MedicineData) (rows : List MedicineRow)
    (c : String) : countRows (updateFirstRow d rows) c = countRows rows c := by
  induction rows with
  | nil => rfl
  | cons r rs ih =>
    by_cases h : r.product_code = d.product_code
    · have hcode : (applyUpdate r d).product_code = r.product_code := by
        simp [applyUpdate, h]
      simp [updateFirstRow, h, countRows_cons, hcode]
    · simp [updateFirstRow, h, countRows_cons, ih]

theorem updateFirstRow_length (d : MedicineData) (rows : List MedicineRow) :
    (updateFirstRow d rows).length = rows.length := by
  induction rows with
  | nil => rfl
  | cons r rs ih =>
    by_cases h : r.product_code = d.product_code <;>
      simp [updateFirstRow, h, ih]

theorem countRows_eq_zero_of_find?_none (rows : List MedicineRow) (c : String)
    (hf : rows.find? (fun r => r.product_code = c) = none) :
    countRows rows c = 0 := by
  rw [List.find?_eq_none] at hf
  have : rows.filter (fun r => r.product_code = c) = [] := by
    rw [List.filter_eq_nil_iff]
    intro a ha
    exact hf a ha
  simp [countRows, this]

theorem one_le_countRows_of_find?_some (rows : List MedicineRow) (c : String)
    (r : MedicineRow)
    (hf : rows.find? (fun x => x.product_code = c) = some r) :
    1 ≤ countRows rows c := by
  have hmem : r ∈ rows := List.mem_of_find?_eq_some hf
  have hc : r.product_code = c := by
    have := List.find?_some hf
    simpa using this
  have : r ∈ rows.filter (fun x => x.product_code = c) := by
    rw [List.mem_filter]
    exact ⟨hmem, by simpa using hc⟩
  have := List.length_pos.mpr (List.ne_nil_of_mem this)
  simpa [countRows] using this

theorem mem_updateFirstRow_of_find? (d : MedicineData)
    (rows : List MedicineRow) (r : MedicineRow)
    (hf : rows.find? (fun x => x.product_code = d.product_code) = some r) :
    applyUpdate r d ∈ updateFirstRow d rows := by
  induction rows with
  | nil => simp [List.find?] at hf
  | cons a as ih =>
    by_cases h : a.product_code = d.product_code
    · rw [List.find?_cons_of_pos _ (by simpa using h)] at hf
      cases hf
      simp [updateFirstRow, h]
    · rw [List.find?_cons_of_neg _ (by simpa using h)] at hf
      simp [updateFirstRow, h]
      exact Or.inr (ih hf)

theorem fieldsReflect_applyUpdate (r : MedicineRow) (d : MedicineData) :
    fieldsReflect (applyUpdate r d) d := by
  refine ⟨rfl, ?_, ?_, ?_, ?_, ?_, ?_, ?_, ?_, ?_, ?_, ?_⟩ <;>
    intro v hv <;> simp [applyUpdate, hv]

theorem fieldsReflect_mkRow (id : Nat) (d : MedicineData) :
    fieldsReflect (mkRow id d) d := by
  refine ⟨rfl, ?_, ?_, ?_, ?_, ?_, ?_, ?_, ?_, ?_, ?_, ?_⟩ <;>
    intro v hv <;> simp [mkRow, hv]

theorem mkFallbackCode_ne_empty (h : String → Int) (url : String) :
    mkFallbackCode h url ≠ "" := by
  intro hcontra
  have := congrArg String.data hcontra
  rw [mkFallbackCode] at this
  simp [String.data_append] at this

/-- The success flag of the transactional effect depends only on the
fault: rollback reports failure, both committing branches report
success. -/
theorem saveMedicineCore_snd (fault : SaveFault) (d : MedicineData)
    (img : Option ImageData) (core : CoreDb) :
    (saveMedicineCore fault d img core).2
      = (match fault with | .dbError => false | _ => true) := by
  cases fault with
  | dbError => rfl
  | ok =>
    simp only [saveMedicineCore]
    cases (if d.product_code ≠ "" then
        core.medicines.find? (fun r => r.product_code = d.product_code)
      else none) <;> rfl
  | imageError =>
    simp only [saveMedicineCore]
    cases (if d.product_code ≠ "" then
        core.medicines.find? (fun r => r.product_code = d.product_code)
      else none) <;> rfl

/-- The committing branches of the upsert (`ok` and `imageError`) leave
exactly one row with the saved product code, given the at-most-one
invariant held before. -/
theorem saveMedicineCore_count (fault : SaveFault) (hfault : fault ≠ .dbError)
    (d : MedicineData) (img : Option ImageData) (core : CoreDb)
    (hcode : d.product_code ≠ "")
    (hle : countCode core d.product_code ≤ 1) :
    countCode (saveMedicineCore fault d img core).1 d.product_code = 1 := by
  cases fault with
  | dbError => exact absurd rfl hfault
  | ok =>
    simp only [saveMedicineCore]
    rw [if_pos hcode]
    cases hex : core.medicines.find? (fun r => r.product_code = d.product_code) with
    | none =>
      have h0 := countRows_eq_zero_of_find?_none core.medicines d.product_code hex
      simp [countCode, countRows_append, countRows_cons, h0, countRows, mkRow]
      intro a ha
      have := List.find?_eq_none.mp hex a ha
      simpa using this
    | some r =>
      have h1 := one_le_countRows_of_find?_some core.medicines d.product_code r hex
      have heq := countRows_updateFirstRow d core.medicines d.product_code
      simp only [countCode] at hle h1 ⊢
      simp only [heq]
      omega
  | imageError =>
    simp only [saveMedicineCore]
    rw [if_pos hcode]
    cases hex : core.medicines.find? (fun r => r.product_code = d.product_code) with
    | none =>
      have h0 := countRows_eq_zero_of_find?_none core.medicines d.product_code hex
      simp [countCode, countRows_append, countRows_cons, h0, countRows, mkRow]
      intro a ha
      have := List.find?_eq_none.mp hex a ha
      simpa using this
    | some r =>
      have h1 := one_le_countRows_of_find?_some core.medicines d.product_code r hex
      have heq := countRows_updateFirstRow d core.medicines d.product_code
      simp only [countCode] at hle h1 ⊢
      simp only [heq]
      omega

/-- The committing branches leave a row reflecting the saved data. -/
theorem saveMedicineCore_reflect (fault : SaveFault) (hfault : fault ≠ .dbError)
    (d : MedicineData) (img : Option ImageData) (core : CoreDb)
    (hcode : d.product_code ≠ "") :
    ∃ r ∈ (saveMedicineCore fault d img core).1.medicines,
      fieldsReflect r d := by
  cases fault with
  | dbError => exact absurd rfl hfault
  | ok =>
    simp only [saveMedicineCore]
    rw [if_pos hcode]
    cases hex : core.medicines.find? (fun r => r.product_code = d.product_code) with
    | none => exact ⟨mkRow core.nextId d, by simp, fieldsReflect_mkRow _ d⟩
    | some r =>
      exact ⟨applyUpdate r d,
        by simpa using mem_updateFirstRow_of_find? d core.medicines r hex,
        fieldsReflect_applyUpdate r d⟩
  | imageError =>
    simp only [saveMedicineCore]
    rw [if_pos hcode]
    cases hex : core.medicines.find? (fun r => r.product_code = d.product_code) with
    | none => exact ⟨mkRow core.nextId d, by simp, fieldsReflect_mkRow _ d⟩
    | some r =>
      exact ⟨applyUpdate r d,
        by simpa using mem_updateFirstRow_of_find? d core.medicines r hex,
        fieldsReflect_applyUpdate r d⟩

/-- When a row with the code already exists, the committing branches
mutate it in place: the table keeps its length (no insert). -/
theorem saveMedicineCore_length (fault : SaveFault) (hfault : fault ≠ .dbError)
    (d : MedicineData) (img : Option ImageData) (core : CoreDb)
    (hcode : d.product_code ≠ "")
    (hfound : 1 ≤ countCode core d.product_code) :
    (saveMedicineCore fault d img core).1.medicines.length
      = core.medicines.length := by
  have hex : ∃ r, core.medicines.find? (fun r => r.product_code = d.product_code)
      = some r := by
    cases hex0 : core.medicines.find? (fun r => r.product_code = d.product_code) with
    | none =>
      have h0 := countRows_eq_zero_of_find?_none core.medicines d.product_code hex0
      simp only [countCode] at hfound
      omega
    | some r => exact ⟨r, rfl⟩
  obtain ⟨r, hr⟩ := hex
  cases fault with
  | dbError => exact absurd rfl hfault
  | ok =>
    simp only [saveMedicineCore]
    rw [if_pos hcode, hr]
    simp [updateFirstRow_length]
  | imageError =>
    simp only [saveMedicineCore]
    rw [if_pos hcode, hr]
    simp [updateFirstRow_length]

/-- `save_medicine_to_db` changes the tables exactly as `saveMedicineCore`
does, whatever the fault. -/
theorem save_medicine_to_db_core (fault : SaveFault) (d : MedicineData)
    (img : Option ImageData) (db : DBState) :
    (save_medicine_to_db fault d img db).1.core
      = (saveMedicineCore fault d img db.core).1 := by
  simp only [save_medicine_to_db]
  rcases hsc : saveMedicineCore fault d img db.core with ⟨core2, ok⟩
  cases ok <;> simp [log_scraping_event]

/-- `save_medicine_to_db` reports exactly the transactional success
flag. -/
theorem save_medicine_to_db_snd (fault : SaveFault) (d : MedicineData)
    (img : Option ImageData) (db : DBState) :
    (save_medicine_to_db fault d img db).2
      = (saveMedicineCore fault d img db.core).2 := by
  simp only [save_medicine_to_db]
  rcases hsc : saveMedicineCore fault d img db.core with ⟨core2, ok⟩
  cases ok <;> simp [log_scraping_event]

/-! ### C5 — save atomicity -/

/-- C5 (counterexample): "any exception during the save rolls the
transaction back, leaving the database unchanged, and the save reports
failure" is false: an exception inside the image-save block
(`medeasy_scraper.py:779-781`) is caught, the medicine is still
committed (without its image) and the save returns `True`. -/
theorem save_atomicity_counterexample :
    (save_medicine_to_db .imageError dataX (some imgX) emptyDb).2 = true ∧
    ¬ (save_medicine_to_db .imageError dataX (some imgX) emptyDb).1.core
        = emptyDb.core := by
  decide

/-- C5 (amended): all writes for one product and its image go through a
single session committed once.  An exception anywhere outside the inner
image block rolls the transaction back — tables unchanged — returns
failure and logs a product-level `ERROR` event.  An exception inside the
image block, however, is caught: the save then behaves exactly like a
successful save without an image (the product row is committed and the
call reports success). -/
theorem save_atomicity_amended :
    ∀ (d : MedicineData) (img : Option ImageData) (db : DBState),
      (save_medicine_to_db .dbError d img db).2 = false ∧
      (save_medicine_to_db .dbError d img db).1.core = db.core ∧
      (save_medicine_to_db .dbError d img db).1.logs
        = ⟨"ERROR", "Error saving medicine to database", none⟩ :: db.logs ∧
      (save_medicine_to_db .imageError d img db).2 = true ∧
      save_medicine_to_db .imageError d img db
        = save_medicine_to_db .ok d none db := by
  intro d img db
  refine ⟨rfl, rfl, rfl, ?_, rfl⟩
  rw [save_medicine_to_db_snd, saveMedicineCore_snd]

/-- C1: the product upsert is idempotent by product code.  Starting from
any database with at most one row for a code, a successful save leaves
exactly one row with that code; a second save of the same code leaves
exactly one row, inserts nothing (the table length is unchanged — the
existing row is mutated in place), and the surviving row's fields reflect
the second save. -/
theorem upsert_idempotent :
    ∀ (d1 d2 : MedicineData) (img1 img2 : Option ImageData) (db : DBState),
      d1.product_code = d2.product_code →
      d2.product_code ≠ "" →
      countCode db.core d2.product_code ≤ 1 →
      countCode (save_medicine_to_db .ok d1 img1 db).1.core d2.product_code = 1 ∧
      countCode (save_medicine_to_db .ok d2 img2
          (save_medicine_to_db .ok d1 img1 db).1).1.core d2.product_code = 1 ∧
      (save_medicine_to_db .ok d2 img2
          (save_medicine_to_db .ok d1 img1 db).1).1.core.medicines.length
        = (save_medicine_to_db .ok d1 img1 db).1.core.medicines.length ∧
      ∃ r ∈ (save_medicine_to_db .ok d2 img2
          (save_medicine_to_db .ok d1 img1 db).1).1.core.medicines,
        fieldsReflect r d2 := by
  intro d1 d2 img1 img2 db h12 hcode hle
  have hcode1 : d1.product_code ≠ "" := by rw [h12]; exact hcode
  have hc1 : countCode (save_medicine_to_db .ok d1 img1 db).1.core
      d2.product_code = 1 := by
    rw [save_medicine_to_db_core, ← h12]
    exact saveMedicineCore_count .ok (by simp) d1 img1 db.core hcode1
      (by rw [h12]; exact hle)
  refine ⟨hc1, ?_, ?_, ?_⟩
  · rw [save_medicine_to_db_core]
    exact saveMedicineCore_count .ok (by simp) d2 img2 _ hcode (le_of_eq hc1)
  · rw [save_medicine_to_db_core]
    exact saveMedicineCore_length .ok (by simp) d2 img2 _ hcode (le_of_eq hc1.symm)
  · rw [save_medicine_to_db_core]
    exact saveMedicineCore_reflect .ok (by simp) d2 img2 _ hcode

/-- C1 (witness): saving `dataX` twice into the empty database leaves
exactly one `P1` row and the second save inserts nothing. -/
theorem upsert_idempotent_witness :
    countCode (save_medicine_to_db .ok dataX none
        (save_medicine_to_db .ok dataX none emptyDb).1).1.core "P1" = 1 ∧
    (save_medicine_to_db .ok dataX none
        (save_medicine_to_db .ok dataX none emptyDb).1).1.core.medicines.length
      = (save_medicine_to_db .ok dataX none emptyDb).1.core.medicines.length :=
  ⟨(upsert_idempotent dataX dataX none none emptyDb rfl (by decide)
      (by decide)).2.1,
   (upsert_idempotent dataX dataX none none emptyDb rfl (by decide)
      (by decide)).2.2.1⟩

/-! ### C9 — category tagging -/

/-- Every entry collected by one category's pagination loop carries that
category's id and slug. -/
theorem mem_discoverCatGo_tags (env : Env) (slug : String) (catId : Nat) :
    ∀ (fuel page : Nat) (e : MedItem),
      e ∈ (discoverCatGo env slug catId page fuel).1 →
      e.category_id = catId ∧ e.category_slug = slug := by
  intro fuel
  induction fuel with
  | zero => intro page e he; simp [discoverCatGo] at he
  | succ fuel ih =>
    intro page e he
    rw [discoverCatGo] at he
    cases hl : env.listing (categoryPageUrl slug page) with
    | none => rw [hl] at he; simp at he
    | some lp =>
      rw [hl] at he
      rcases hgo : discoverCatGo env slug catId (page + 1) fuel with ⟨rest, c⟩
      by_cases hempty : lp.links = []
      · simp [hempty] at he
      · by_cases hn : hasNextAffordance lp
        · by_cases hcap : page + 1 > 50
          · simp [hempty, hn, hcap] at he
            obtain ⟨l, _, hl2⟩ := he
            simp [← hl2]
          · simp [hempty, hn, hcap, hgo] at he
            rcases he with ⟨l, _, hl2⟩ | hrest
            · simp [← hl2]
            · refine ih (page + 1) e ?_
              rw [hgo]
              exact hrest
        · simp [hempty, hn] at he
          obtain ⟨l, _, hl2⟩ := he
          simp [← hl2]

/-- Every discovered entry's id is the mapping-table image of its slug. -/
theorem mem_discover_tags (env : Env) (e : MedItem)
    (he : e ∈ discover_medicine_urls env) :
    ∃ slug catId,
      (category_mappings.find? (fun p => p.1 = slug)).map (·.2) = some catId ∧
      e.category_slug = slug ∧ e.category_id = catId := by
  have main : ∀ slugs : List String,
      e ∈ slugs.foldr
        (fun slug acc =>
          match (category_mappings.find? (fun p => p.1 = slug)).map (·.2) with
          | some catId => (discoverCat env slug catId).1 ++ acc
          | none => acc) [] →
      ∃ slug catId,
        (category_mappings.find? (fun p => p.1 = slug)).map (·.2) = some catId ∧
        e.category_slug = slug ∧ e.category_id = catId := by
    intro slugs
    induction slugs with
    | nil => intro hmem; simp at hmem
    | cons s ss ih =>
      intro hmem
      cases hlk : (category_mappings.find? (fun p => p.1 = s)).map (·.2) with
      | none =>
        simp only [List.foldr_cons, hlk] at hmem
        exact ih hmem
      | some catId =>
        simp only [List.foldr_cons, hlk] at hmem
        rcases List.mem_append.mp hmem with hin | hrest
        · have := mem_discoverCatGo_tags env s catId 50 1 e hin
          exact ⟨s, catId, hlk, this.2, this.1⟩
        · exact ih hrest
  exact main category_urls he

/-- The extracted product code is never the empty string: either a
non-empty cleaned scrape or the `"ME_..."` fallback. -/
theorem extract_code_ne_empty (h : String → Int) (page : MedPage)
    (url : String) (catId : Option Nat) :
    (extract_medicine_data h page url catId).product_code ≠ "" := by
  have hfb : mkFallbackCode h url ≠ "" := mkFallbackCode_ne_empty h url
  simp only [extract_medicine_data]
  cases hct : page.codeText with
  | none => simpa using hfb
  | some t =>
    by_cases ht : clean_text t = ""
    · simp [ht]
      exact fun hcontra => hfb hcontra
    · simp [ht]

/-- C9: every URL discovered under the slug `dental-care` is tagged with
category id 11 at discovery time; the extractor copies the tag into the
record independently of anything on the product page; and a successful
scrape of such an item persists a row with `category_id = 11`. -/
theorem category_tagging :
    (∀ (env : Env) (e : MedItem), e ∈ discover_medicine_urls env →
      e.category_slug = "dental-care" → e.category_id = 11) ∧
    (∀ (h : String → Int) (page : MedPage) (url : String),
      (extract_medicine_data h page url (some 11)).category_id = some 11) ∧
    (∀ (h : String → Int) (env : Env) (item : MedItem) (db : DBState)
       (page : MedPage),
      env.fetch item.url = some page →
      item.category_id = 11 →
      env.saveFault item.url = SaveFault.ok →
      nameTruthy (extract_medicine_data h page item.url (some 11)) = true →
      ∃ r ∈ (scrape_medicine_page h env item db).1.core.medicines,
        r.product_code
          = (extract_medicine_data h page item.url (some 11)).product_code ∧
        r.category_id = some 11) := by
  refine ⟨?_, ?_, ?_⟩
  · intro env e he hslug
    obtain ⟨slug, catId, hlk, hslug', hid⟩ := mem_discover_tags env e he
    rw [hslug] at hslug'
    rw [← hslug'] at hlk
    have h11 : (category_mappings.find? (fun p => p.1 = "dental-care")).map
        (·.2) = some 11 := by decide
    rw [h11] at hlk
    cases hlk
    exact hid
  · intro h page url
    rfl
  · intro h env item db page hfetch hcat hfault hname
    have hd : extract_medicine_data h page item.url (some item.category_id)
        = extract_medicine_data h page item.url (some 11) := by rw [hcat]
    simp only [scrape_medicine_page, hfetch, hd, hname, if_true, hfault]
    have hcode := extract_code_ne_empty h page item.url (some 11)
    obtain ⟨r, hr, hrefl⟩ := saveMedicineCore_reflect .ok (by simp)
      (extract_medicine_data h page item.url (some 11))
      (env.image item.url) db.core hcode
    refine ⟨r, ?_, hrefl.1, hrefl.2.2.2.2.2.2.2.2.2.2.2 11 rfl⟩
    have hmem : r ∈ (save_medicine_to_db .ok
        (extract_medicine_data h page item.url (some 11))
        (env.image item.url) db).1.core.medicines := by
      rw [save_medicine_to_db_core]
      exact hr
    rcases hsv : save_medicine_to_db .ok
        (extract_medicine_data h page item.url (some 11))
        (env.image item.url) db with ⟨db1, ok⟩
    have hok : ok = true := by
      have := save_medicine_to_db_snd .ok
        (extract_medicine_data h page item.url (some 11))
        (env.image item.url) db
      rw [hsv] at this
      simp only at this
      rw [this, saveMedicineCore_snd]
    rw [hsv] at hmem
    simp only at hmem
    simp [hok, log_scraping_event, hmem]

/-- C9 (witness): scraping the concrete dental-care item `urlA` from the
fixture site persists its row with category id 11. -/
theorem category_tagging_witness :
    (⟨urlA, 11, "dental-care"⟩ : MedItem).category_id = 11 ∧
    ∃ r ∈ (scrape_medicine_page hW envW ⟨urlA, 11, "dental-care"⟩
        emptyDb).1.core.medicines,
      r.product_code = (extract_medicine_data hW pageA urlA (some 11)).product_code ∧
      r.category_id = some 11 :=
  ⟨category_tagging.1 envW ⟨urlA, 11, "dental-care"⟩ (by decide) rfl,
   category_tagging.2.2 hW envW ⟨urlA, 11, "dental-care"⟩ emptyDb pageA
     (by decide) rfl rfl (by decide)⟩


/-! ### C2 — checkpoint resumability -/

theorem update_progress_core (db : DBState) (a b c e : Nat) (st : String) :
    (update_progress db a b c e st).core = db.core := rfl

theorem save_resume_data_core (db : DBState) (rd : ResumeData) :
    (save_resume_data db rd).core = db.core := rfl

theorem log_scraping_event_core (db : DBState) (l m : String)
    (u : Option String) : (log_scraping_event db l m u).core = db.core := rfl

theorem log_scraping_event_progress (db : DBState) (l m : String)
    (u : Option String) :
    (log_scraping_event db l m u).progress = db.progress := rfl

theorem update_progress_progress (db : DBState) (a b c e : Nat) (st : String) :
    (update_progress db a b c e st).progress
      = some ⟨a, b, c, e, st, (db.progress.getD {}).resume_data⟩ := rfl

theorem save_medicine_to_db_progress (fault : SaveFault) (d : MedicineData)
    (img : Option ImageData) (db : DBState) :
    (save_medicine_to_db fault d img db).1.progress = db.progress := by
  simp only [save_medicine_to_db]
  rcases hsc : saveMedicineCore fault d img db.core with ⟨core2, ok⟩
  cases ok <;> simp [log_scraping_event]

/-- One `scrape_medicine_page` call: its table effect is `scrapeCore`, it
never touches the progress row, and its success flag is `itemOk`. -/
theorem scrape_medicine_page_spec (h : String → Int) (env : Env)
    (item : MedItem) (db : DBState) :
    (scrape_medicine_page h env item db).1.core = scrapeCore h env item db.core ∧
    (scrape_medicine_page h env item db).1.progress = db.progress ∧
    (scrape_medicine_page h env item db).2 = itemOk h env item := by
  simp only [scrape_medicine_page, scrapeCore, itemOk]
  cases hf : env.fetch item.url with
  | none => exact ⟨rfl, rfl, rfl⟩
  | some page =>
    by_cases hn : nameTruthy
        (extract_medicine_data h page item.url (some item.category_id)) = true
    · rcases hsv : save_medicine_to_db (env.saveFault item.url)
          (extract_medicine_data h page item.url (some item.category_id))
          (env.image item.url) db with ⟨db1, ok⟩
      have hcore := save_medicine_to_db_core (env.saveFault item.url)
        (extract_medicine_data h page item.url (some item.category_id))
        (env.image item.url) db
      have hprog := save_medicine_to_db_progress (env.saveFault item.url)
        (extract_medicine_data h page item.url (some item.category_id))
        (env.image item.url) db
      have hsnd := save_medicine_to_db_snd (env.saveFault item.url)
        (extract_medicine_data h page item.url (some item.category_id))
        (env.image item.url) db
      rw [hsv] at hcore hprog hsnd
      simp only at hcore hprog hsnd
      rw [saveMedicineCore_snd] at hsnd
      cases ok <;>
        exact ⟨by simp [hsv, hn, log_scraping_event, hcore],
               by simp [hsv, hn, log_scraping_event, hprog],
               by simp [hsv, hn, ← hsnd]⟩
    · simp [hn, log_scraping_event]

theorem succCount_cons (h : String → Int) (env : Env) (item : MedItem)
    (l : List MedItem) :
    succCount h env (item :: l)
      = (if itemOk h env item then 1 else 0) + succCount h env l := by
  by_cases hi : itemOk h env item <;>
    simp [succCount, List.filter_cons, hi, Nat.add_comm]

theorem succCount_append (h : String → Int) (env : Env)
    (l1 l2 : List MedItem) :
    succCount h env (l1 ++ l2) = succCount h env l1 + succCount h env l2 := by
  simp [succCount, List.filter_append]

theorem processCore_append (h : String → Int) (env : Env)
    (l1 l2 : List MedItem) (core : CoreDb) :
    processCore h env (l1 ++ l2) core
      = processCore h env l2 (processCore h env l1 core) := by
  induction l1 generalizing core with
  | nil => rfl
  | cons a l1 ih => simp [processCore, ih]

/-- The per-item loop: its table effect is `processCore`, its final
counter adds one success per succeeding item, it is the identity on an
empty slice, and after a non-empty slice the progress row carries the
running status and the checkpoint `{work list, last index + 1, processed}`
— written on the last (hence on every) iteration. -/
theorem processItems_spec (h : String → Int) (env : Env)
    (allUrls : List MedItem) :
    ∀ (l : List MedItem) (idx p : Nat) (db : DBState),
      (processItems h env allUrls l idx p db).1.core
          = processCore h env l db.core ∧
      (processItems h env allUrls l idx p db).2 = p + succCount h env l ∧
      (l = [] → (processItems h env allUrls l idx p db).1 = db) ∧
      (l ≠ [] → (processItems h env allUrls l idx p db).1.progress
          = some ⟨1, 1, p + succCount h env l, allUrls.length, "running",
              some ⟨allUrls, idx + l.length, p + succCount h env l⟩⟩) := by
  intro l
  induction l with
  | nil =>
    intro idx p db
    exact ⟨rfl, by simp [processItems, succCount], fun _ => rfl,
      fun hne => absurd rfl hne⟩
  | cons item rest ih =>
    intro idx p db
    have hsp := scrape_medicine_page_spec h env item db
    rcases hpage : scrape_medicine_page h env item db with ⟨db1, ok⟩
    rw [hpage] at hsp
    simp only at hsp
    obtain ⟨hcore1, hprog1, hok⟩ := hsp
    have hstep : processItems h env allUrls (item :: rest) idx p db
        = processItems h env allUrls rest (idx + 1)
            (if ok then p + 1 else p)
            (save_resume_data
              (update_progress db1 1 1 (if ok then p + 1 else p)
                allUrls.length "running")
              ⟨allUrls, idx + 1, if ok then p + 1 else p⟩) := by
      simp only [processItems, hpage]
    have ihr := ih (idx + 1) (if ok then p + 1 else p)
      (save_resume_data
        (update_progress db1 1 1 (if ok then p + 1 else p)
          allUrls.length "running")
        ⟨allUrls, idx + 1, if ok then p + 1 else p⟩)
    have hpcount : (if ok then p + 1 else p) + succCount h env rest
        = p + succCount h env (item :: rest) := by
      rw [succCount_cons, ← hok]
      cases ok with
      | false => simp
      | true => simp; omega
    refine ⟨?_, ?_, ?_, ?_⟩
    · rw [hstep, ihr.1]
      simp [save_resume_data_core, update_progress_core, hcore1, processCore]
    · rw [hstep, ihr.2.1, hpcount]
    · intro hcontra
      exact absurd hcontra (List.cons_ne_nil item rest)
    · intro _
      cases hrest : rest with
      | nil =>
        rw [hrest] at hstep ihr
        rw [hstep]
        have h3 := ihr.2.2.1 rfl
        rw [h3]
        subst hok
        cases hitem : itemOk h env item <;>
          simp [save_resume_data, update_progress, succCount_cons, succCount,
            hitem]
      | cons r2 rs2 =>
        rw [hrest] at hstep ihr hpcount
        rw [hstep]
        have h4 := ihr.2.2.2 (by simp)
        rw [h4, hpcount]
        have hlen : idx + 1 + (r2 :: rs2).length = idx + (item :: r2 :: rs2).length := by
          simp [List.length_cons]
          omega
        rw [hlen]


theorem get_resume_data_log (db : DBState) (l m : String) (u : Option String) :
    get_resume_data (log_scraping_event db l m u) = get_resume_data db := rfl

/-- Unfolding a `resume=true` crawl whose effective work list is
non-empty: the table effect is the per-item loop over `urls.drop cur`,
and the final progress row is `"completed"` with the summed counter and
the last checkpoint. -/
theorem scrape_all_spec (h : String → Int) (env : Env) (db : DBState)
    (urls : List MedItem) (cur p0 : Nat)
    (hrd : get_resume_data db = some ⟨urls, cur, p0⟩ ∨
      (get_resume_data db = none ∧ urls = discover_medicine_urls env ∧
        cur = 0 ∧ p0 = 0))
    (hne : urls ≠ []) :
    (scrape_all_medicines h env true db).core
        = processCore h env (urls.drop cur) db.core ∧
    (scrape_all_medicines h env true db).progress
        = some ⟨1, 1, p0 + succCount h env (urls.drop cur), urls.length,
            "completed",
            if urls.drop cur = [] then (db.progress.getD {}).resume_data
            else some ⟨urls, cur + (urls.drop cur).length,
              p0 + succCount h env (urls.drop cur)⟩⟩ := by
  have hspec := processItems_spec h env urls (urls.drop cur) cur p0
    (update_progress
      (match (if true then get_resume_data db else none) with
       | some _ =>
         log_scraping_event
           (log_scraping_event db "INFO" "Starting MedEasy medicine scraping" none)
           "INFO" "Resuming from previous session" none
       | none =>
         log_scraping_event db "INFO" "Starting MedEasy medicine scraping" none)
      1 1 p0 urls.length "running")
  rcases hrd with hrd | ⟨hrd, hu, hc, hp⟩
  · rw [hrd] at hspec
    simp only [if_true] at hspec
    constructor
    · simp only [scrape_all_medicines, get_resume_data_log, hrd, hne,
        if_true, log_scraping_event_core, update_progress_core]
      simp [hne, log_scraping_event_core, update_progress_core, hspec.1]
    · simp only [scrape_all_medicines, get_resume_data_log, hrd, if_true]
      simp only [hne, if_neg, log_scraping_event_progress]
      cases hdrop : urls.drop cur with
      | nil =>
        have h3 := hspec.2.2.1 hdrop
        rw [hdrop] at h3 hspec
        simp [hne, h3, hspec.2.1, update_progress_progress,
          log_scraping_event_progress, succCount]
      | cons a l =>
        have h4 := hspec.2.2.2 (by rw [hdrop]; simp)
        rw [hdrop] at h4 hspec
        simp [hne, h4, hspec.2.1, update_progress_progress,
          log_scraping_event_progress]
  · subst hu hc hp
    rw [hrd] at hspec
    simp only [if_true, List.drop_zero] at hspec
    constructor
    · simp only [scrape_all_medicines, get_resume_data_log, hrd, hne,
        if_true, log_scraping_event_core, update_progress_core]
      simp [hne, log_scraping_event_core, update_progress_core, hspec.1]
    · have h4 := hspec.2.2.2 hne
      simp only [scrape_all_medicines, get_resume_data_log, hrd, if_true]
      simp [hne, h4, hspec.2.1, update_progress_progress,
        log_scraping_event_progress]


theorem crashedState_core (h : String → Int) (env : Env) (db0 : DBState)
    (k : Nat) :
    (crashedState h env db0 k).core
      = processCore h env ((discover_medicine_urls env).take k) db0.core := by
  rw [crashedState,
    (processItems_spec h env (discover_medicine_urls env)
      ((discover_medicine_urls env).take k) 0 0 _).1]
  rfl

/-- A crawl killed after `k ≥ 1` items has persisted the checkpoint
`{work list, k, processed-so-far}` in its progress row. -/
theorem crashedState_checkpoint (h : String → Int) (env : Env)
    (db0 : DBState) (k : Nat)
    (hne : discover_medicine_urls env ≠ []) (hk1 : 1 ≤ k)
    (hk : k ≤ (discover_medicine_urls env).length) :
    (crashedState h env db0 k).progress
      = some ⟨1, 1, succCount h env ((discover_medicine_urls env).take k),
          (discover_medicine_urls env).length, "running",
          some ⟨discover_medicine_urls env, k,
            succCount h env ((discover_medicine_urls env).take k)⟩⟩ := by
  have htake : (discover_medicine_urls env).take k ≠ [] := by
    cases hu : discover_medicine_urls env with
    | nil => exact absurd hu hne
    | cons a t =>
      cases k with
      | zero => omega
      | succ k2 => simp
  have hlen : ((discover_medicine_urls env).take k).length = k := by
    rw [List.length_take]
    omega
  have hspec := (processItems_spec h env (discover_medicine_urls env)
      ((discover_medicine_urls env).take k) 0 0
      (update_progress
        (log_scraping_event db0 "INFO" "Starting MedEasy medicine scraping" none)
        1 1 0 (discover_medicine_urls env).length "running")).2.2.2 htake
  rw [crashedState, hspec, hlen]
  simp

/-- C2: a crawl killed after processing `N ≥ 1` of the discovered items
has written the checkpoint `{work list, k, processed}` after every one of
its `k ≤ N` iterations; restarting it with `resume=true` reloads that
work list and cursor `N` (so the loop runs over exactly the items after
the first `N`), and the restarted run ends with the same medicine and
image tables, the same row count, and the same final progress row
(`"completed"`, same totals) as a single uninterrupted run. -/
theorem checkpoint_resume_equiv :
    ∀ (h : String → Int) (env : Env) (db0 : DBState) (N : Nat),
      db0.progress = none →
      discover_medicine_urls env ≠ [] →
      1 ≤ N → N ≤ (discover_medicine_urls env).length →
      (∀ k, 1 ≤ k → k ≤ (discover_medicine_urls env).length →
        get_resume_data (crashedState h env db0 k)
          = some ⟨discover_medicine_urls env, k,
              succCount h env ((discover_medicine_urls env).take k)⟩) ∧
      (scrape_all_medicines h env true (crashedState h env db0 N)).core
        = (scrape_all_medicines h env true db0).core ∧
      (scrape_all_medicines h env true (crashedState h env db0 N)).progress
        = (scrape_all_medicines h env true db0).progress ∧
      (scrape_all_medicines h env true
          (crashedState h env db0 N)).core.medicines.length
        = (scrape_all_medicines h env true db0).core.medicines.length := by
  intro h env db0 N hprog hne hN1 hNle
  have hck : ∀ k, 1 ≤ k → k ≤ (discover_medicine_urls env).length →
      get_resume_data (crashedState h env db0 k)
        = some ⟨discover_medicine_urls env, k,
            succCount h env ((discover_medicine_urls env).take k)⟩ := by
    intro k hk1 hk
    rw [get_resume_data_eq, crashedState_checkpoint h env db0 k hne hk1 hk]
    rfl
  have hfullrd : get_resume_data db0 = none := by
    rw [get_resume_data_eq, hprog]
    rfl
  have hA := scrape_all_spec h env (crashedState h env db0 N)
    (discover_medicine_urls env) N
    (succCount h env ((discover_medicine_urls env).take N))
    (Or.inl (hck N hN1 hNle)) hne
  have hB := scrape_all_spec h env db0 (discover_medicine_urls env) 0 0
    (Or.inr ⟨hfullrd, rfl, rfl, rfl⟩) hne
  have htotal : succCount h env ((discover_medicine_urls env).take N)
      + succCount h env ((discover_medicine_urls env).drop N)
      = succCount h env (discover_medicine_urls env) := by
    rw [← succCount_append, List.take_append_drop]
  have hcore : (scrape_all_medicines h env true
      (crashedState h env db0 N)).core
        = (scrape_all_medicines h env true db0).core := by
    rw [hA.1, hB.1, crashedState_core, List.drop_zero,
      ← processCore_append, List.take_append_drop]
  refine ⟨hck, hcore, ?_, by rw [hcore]⟩
  rw [hA.2, hB.2]
  rw [List.drop_zero]
  rw [if_neg hne]
  have hdlen : ((discover_medicine_urls env).drop N).length
      = (discover_medicine_urls env).length - N := List.length_drop N _
  cases hdrop : (discover_medicine_urls env).drop N with
  | nil =>
    rw [hdrop] at hdlen
    have hNlen : N = (discover_medicine_urls env).length := by
      simp at hdlen
      omega
    have htakeall : (discover_medicine_urls env).take N
        = discover_medicine_urls env := by
      rw [hNlen, List.take_length]
    rw [if_pos rfl]
    have hcarried : ((crashedState h env db0 N).progress.getD {}).resume_data
        = some ⟨discover_medicine_urls env, N,
            succCount h env ((discover_medicine_urls env).take N)⟩ := by
      rw [crashedState_checkpoint h env db0 N hne hN1 hNle]
      rfl
    rw [hcarried, htakeall, hNlen]
    simp [succCount]
  | cons a l =>
    rw [if_neg (by simp)]
    rw [← hdrop] at *
    rw [hdlen]
    have h1 : N + ((discover_medicine_urls env).length - N)
        = (discover_medicine_urls env).length := by omega
    rw [h1, htotal]
    simp

/-- C2 (witness): on the two-item fixture site, a crawl killed after one
item and resumed produces exactly the run of an uninterrupted crawl. -/
theorem checkpoint_resume_equiv_witness :
    (scrape_all_medicines hW envW true (crashedState hW envW emptyDb 1)).core
      = (scrape_all_medicines hW envW true emptyDb).core ∧
    (scrape_all_medicines hW envW true (crashedState hW envW emptyDb 1)).progress
      = (scrape_all_medicines hW envW true emptyDb).progress :=
  ⟨(checkpoint_resume_equiv hW envW emptyDb 1 rfl (by decide) (by decide)
      (by decide)).2.1,
   (checkpoint_resume_equiv hW envW emptyDb 1 rfl (by decide) (by decide)
      (by decide)).2.2.1⟩

end MedEasy